import Mathlib

/-!
A verification development for the analytical core of the flaw2flow
validation-coverage analyzer (`src/flaw2flow/f2f_guard.py` and
`src/flaw2flow/validator_collector.py`).

The Python code is shallowly embedded:

* A fragment of the Python abstract syntax tree (`ast` module) is modelled by
  the inductive types `Expr` and `Stmt`.  Only the node kinds and fields the
  analyzer inspects are modelled: `ast.Name` (field `id`), `ast.Attribute`
  (fields `value`, `attr`), `ast.Call` (fields `func`, `args`, `keywords`,
  where each keyword is a pair of an optional keyword name — `None` for a
  `**kwargs` splat — and a value expression), `ast.Constant`, and, on the
  statement side, `ast.FunctionDef` / `ast.AsyncFunctionDef` (fields `name`,
  `lineno`, `body`) and expression statements.  Every other node kind is
  collapsed into `Expr.other` / `Stmt.other`, which have no children the
  analyzer would inspect.
* Python `dict[str, set[str]]` results, read back only through
  `dict.get(key, set())`, are modelled as total functions
  `String → Finset String` with default `∅`.
* Python exceptions raised by the guard are modelled by the inductive type
  `F2FError` together with `Except`; each constructor is tied to one `raise`
  site by its doc comment.  The human-readable message text is not modelled,
  but the data interpolated into it (parameter name, validator sets) is
  carried by the constructors.
* `str.startswith` is modelled by `strStartsWith` (character-list prefix
  test), and Python's `is` identity test on builtin type objects by
  constructor matching on the `Ann` type of resolved annotation expressions.
-/

/-- Model of Python `s.startswith(p)`: `p`'s characters are a prefix of
`s`'s characters. -/
def strStartsWith (s p : String) : Bool :=
  p.data.isPrefixOf s.data

/-- Expression fragment of the Python `ast` used by the analyzer.  A
`keyword` node of a call is a pair `(arg?, value)`; `arg? = none` models a
`**kwargs` splat keyword whose `arg` attribute is `None`. -/
inductive Expr : Type
  | name (id : String)
  | attribute (value : Expr) (attr : String)
  | constant
  | call (func : Expr) (args : List Expr) (keywords : List (Option String × Expr))
  | other

/-- Statement fragment of the Python `ast` used by the analyzer.
`functionDef`/`asyncFunctionDef` carry the `name`, `lineno` and `body`
fields inspected by the guard; other fields (decorators, defaults, ...) are
not inspected by the analyzer and are not modelled. -/
inductive Stmt : Type
  | functionDef (name : String) (lineno : Nat) (body : List Stmt)
  | asyncFunctionDef (name : String) (lineno : Nat) (body : List Stmt)
  | exprStmt (e : Expr)
  | other

/-- The collector result `dict[str, set[str]]`, observed by the guard only
through `result.get(pname, set())` (f2f_guard.py line 89): a total map with
default `∅`. -/
def ResultMap := String → Finset String

/-- A fresh empty `result` dictionary (`SimpleValidatorCollector.__init__`,
f2f_guard.py line 256, and `ValidatorCollector.__init__`,
validator_collector.py line 39). -/
def emptyResult : ResultMap := fun _ => ∅

/-- `SimpleValidatorCollector._record` (f2f_guard.py lines 258-277):
ensure `result[param]` exists and add `validator` to its set. -/
def record (param validator : String) (m : ResultMap) : ResultMap :=
  fun q => if q = param then insert validator (m q) else m q

/-- The body of `SimpleValidatorCollector.visit_Call` (f2f_guard.py lines
326-343), applied to one `ast.Call` node with pieces `funcE`, `args`,
`keywords`: detect `F2F.validate_*(...)`; record the first positional
argument when it is a bare `ast.Name`; record every keyword argument whose
`arg` is not `None` and whose value is a bare `ast.Name`.  (The Python
`if validator_name:` truthiness test coincides with `is not None` here,
since a matched attribute begins with the nonempty text `validate_`.) -/
def simpleVisitCall (funcE : Expr) (args : List Expr)
    (keywords : List (Option String × Expr)) (r : ResultMap) : ResultMap :=
  let validatorName : Option String :=
    match funcE with
    | .attribute (.name vid) attr =>
        if vid = "F2F" && strStartsWith attr "validate_" then some attr else none
    | _ => none
  match validatorName with
  | none => r
  | some vname =>
      let r1 :=
        match args with
        | Expr.name id :: _ => record id vname r
        | _ => r
      keywords.foldl (fun acc kw =>
        match kw with
        | (some _, Expr.name id) => record id vname acc
        | _ => acc) r1

mutual
/-- Traversal of `SimpleValidatorCollector` over an expression.  The class
defines only `visit_Call`, so `ast.NodeVisitor.visit` dispatches every other
node kind to `generic_visit`, which visits all children; `visit_Call` first
runs the detection logic and then calls `self.generic_visit(node)`
(f2f_guard.py line 346). -/
def collectE : Expr → ResultMap → ResultMap
  | .call f args kws, r =>
      let r1 := simpleVisitCall f args kws r
      collectKws kws (collectEs args (collectE f r1))
  | .attribute v _, r => collectE v r
  | .name _, r => r
  | .constant, r => r
  | .other, r => r

/-- Child traversal of an expression list (part of `generic_visit`). -/
def collectEs : List Expr → ResultMap → ResultMap
  | [], r => r
  | e :: rest, r => collectEs rest (collectE e r)

/-- Child traversal of a call's keyword list (part of `generic_visit`):
each keyword's value expression is visited. -/
def collectKws : List (Option String × Expr) → ResultMap → ResultMap
  | [], r => r
  | (_, v) :: rest, r => collectKws rest (collectE v r)
end

mutual
/-- Traversal of `SimpleValidatorCollector` over a statement: the class has
no statement hooks, so every statement is handled by `generic_visit`, which
visits the children (for definitions, the body). -/
def collectS : Stmt → ResultMap → ResultMap
  | .functionDef _ _ body, r => collectSs body r
  | .asyncFunctionDef _ _ body, r => collectSs body r
  | .exprStmt e, r => collectE e r
  | .other, r => r

/-- Child traversal of a statement list (part of `generic_visit`). -/
def collectSs : List Stmt → ResultMap → ResultMap
  | [], r => r
  | s :: rest, r => collectSs rest (collectS s r)
end

/-- `collector = SimpleValidatorCollector(); collector.visit(target_node);
collector.result` (f2f_guard.py lines 348-350): run the collector on the
located function node starting from an empty result. -/
def collectFunction (node : Stmt) : ResultMap :=
  collectS node emptyResult

/-- A resolved parameter type annotation, as produced by
`typing.get_type_hints` and destructured by the guard with `get_origin` /
`get_args` and `is` identity tests (f2f_guard.py lines 126-172).
`noneType` is `type(None)`; `union ms` is `Union[...]`/`A | B` with argument
list `ms`; `list elem?` covers bare `list` (`elem? = none`, no type
arguments) and `list[E]` (`elem? = some e`); `custom s` is any other
(unsupported) type. -/
inductive Ann : Type
  | int | float | bool | str | bytes
  | list (elem : Option Ann)
  | dict | tuple
  | noneType
  | union (members : List Ann)
  | custom (name : String)

/-- Python `arg is type(None)` (f2f_guard.py line 138). -/
def Ann.isNoneType : Ann → Bool
  | .noneType => true
  | _ => false

/-- Python identity test `elem is int` (used in `elem in (int, float)`,
f2f_guard.py line 159; `in` on a tuple of type objects is identity-based). -/
def Ann.isInt : Ann → Bool
  | .int => true
  | _ => false

/-- Python identity test `elem is float` (f2f_guard.py line 159). -/
def Ann.isFloat : Ann → Bool
  | .float => true
  | _ => false

/-- Python identity test `elem is str` (f2f_guard.py line 161). -/
def Ann.isStr : Ann → Bool
  | .str => true
  | _ => false

mutual
/-- `F2FGuard._required_Validators_For_Annotation` (f2f_guard.py lines
126-172).  The Python function tests in order: `Union`, then the scalar
builtins `int`, `float`, `bool`, `str`, `bytes` by identity, then the
containers `list`, `dict`, `tuple` by origin or identity, and returns the
empty set for anything else.  The tests are identity tests on distinct type
objects, so they translate to matching on the disjoint constructors of
`Ann`. -/
def requiredValidators : Ann → Finset String
  | .union ms => unionRequired ms
  | .int => {"validate_Int"}
  | .float => {"validate_Float"}
  | .bool => {"validate_Bool"}
  | .str => {"validate_String"}
  | .bytes => {"validate_Bytes"}
  | .list (some e) =>
      if e.isInt || e.isFloat then {"validate_Numeric_List"}
      else if e.isStr then {"validate_String_List"}
      else {"validate_List"}
  | .list none => {"validate_List"}
  | .dict => {"validate_Dict"}
  | .tuple => {"validate_Tuple"}
  | .noneType => ∅
  | .custom _ => ∅

/-- The `Union` branch of `_required_Validators_For_Annotation` (f2f_guard.py
lines 136-141): fold over the union's arguments, skipping `type(None)`,
accumulating the union of the recursive results. -/
def unionRequired : List Ann → Finset String
  | [] => ∅
  | a :: rest => (if a.isNoneType then ∅ else requiredValidators a) ∪ unionRequired rest
end

/-- One entry of `inspect.signature(func).parameters`, restricted to the
fields read by `validate_Function`: the parameter name, whether its kind is
`VAR_POSITIONAL` or `VAR_KEYWORD` (f2f_guard.py line 70), and its resolved
type hint — `none` models `type_hints.get(name, inspect._empty)` returning
`inspect._empty` (f2f_guard.py line 73). -/
structure Param where
  name : String
  isVariadic : Bool
  annot : Option Ann

/-- The exceptions raised by the guard's analytical core:
`missingAnnot p` is the `TypeError` of f2f_guard.py lines 76-78 (parameter
`p` has no type annotation); `missingValidators p s` is the `ValueError` of
line 93 (parameter `p` is missing validator set `s`); `extraValidators p s`
is the `ValueError` of lines 97-99 (parameter `p` has unexpected validator
set `s`); `locateError f` is the `RuntimeError` of line 207 (function `f`
not found in the parsed tree). -/
inductive F2FError : Type
  | missingAnnot (param : String)
  | missingValidators (param : String) (validators : Finset String)
  | extraValidators (param : String) (validators : Finset String)
  | locateError (funcName : String)
deriving DecidableEq

/-- The first loop of `validate_Function` (f2f_guard.py lines 60-82):
walk the signature's parameters in order, skip `self`/`cls` and variadic
parameters, raise `TypeError` on a missing annotation, and keep
`(name, needed)` in the `param_required` dict only when `needed` is
nonempty.  Python dicts preserve insertion order, so the dict is modelled
as an ordered association list. -/
def computeRequired : List Param → Except F2FError (List (String × Finset String))
  | [] => Except.ok []
  | p :: rest =>
      if p.name = "self" ∨ p.name = "cls" then computeRequired rest
      else if p.isVariadic then computeRequired rest
      else
        match p.annot with
        | none => Except.error (F2FError.missingAnnot p.name)
        | some a =>
            let needed := requiredValidators a
            match computeRequired rest with
            | Except.error e => Except.error e
            | Except.ok tail =>
                Except.ok (if needed = ∅ then tail else (p.name, needed) :: tail)

/-- The comparison loop of `validate_Function` (f2f_guard.py lines 88-99):
for each required entry in order, read `actual.get(pname, set())`, raise on
a nonempty `missing = required - actual` first, then raise on a nonempty
`extra = actual - required`. -/
def checkCoverage : List (String × Finset String) → ResultMap → Except F2FError Unit
  | [], _ => Except.ok ()
  | (pname, requiredSet) :: rest, actual =>
      let actualSet := actual pname
      let missing := requiredSet \ actualSet
      if missing = ∅ then
        let extra := actualSet \ requiredSet
        if extra = ∅ then checkCoverage rest actual
        else Except.error (F2FError.extraValidators pname extra)
      else Except.error (F2FError.missingValidators pname missing)

/-- `F2FGuard.validate_Function` (f2f_guard.py lines 39-99) on an already
reflected signature (`params`, in declaration order) and an already located
function node (`node`): build the required map — raising on a missing
annotation — then collect the actual validator calls from the node and
compare.  The reflection and file-loading plumbing (lines 43-58, 183-207)
is outside this model; the claims about it are settled on
`locateFunctionNode` below. -/
def validateFunction (params : List Param) (node : Stmt) : Except F2FError Unit :=
  match computeRequired params with
  | Except.error e => Except.error e
  | Except.ok pr => checkCoverage pr (collectFunction node)

/-- One `ast.FunctionDef` / `ast.AsyncFunctionDef` candidate met by
`ast.walk` in `_collect_F2f_Validations` (f2f_guard.py lines 195-196),
restricted to the two fields the locator reads: `name` and `lineno`. -/
structure DefNode where
  name : String
  lineno : Nat
deriving DecidableEq

/-- The locator loop of `_collect_F2f_Validations` (f2f_guard.py lines
194-204) over the definition nodes in `ast.walk` order, threading the
`target_node` accumulator: on a name match with an exact `lineno` match,
break with that node; on a name match otherwise, set the accumulator only
if it is still `None`. -/
def ftLoop (funcName : String) (funcLineno : Nat) :
    List DefNode → Option DefNode → Option DefNode
  | [], acc => acc
  | n :: rest, acc =>
      if n.name = funcName then
        if n.lineno = funcLineno then some n
        else
          match acc with
          | none => ftLoop funcName funcLineno rest (some n)
          | some m => ftLoop funcName funcLineno rest (some m)
      else ftLoop funcName funcLineno rest acc

/-- The locator of `_collect_F2f_Validations` (f2f_guard.py lines 193-207):
run the search loop with `target_node = None`; a `None` outcome is the
`RuntimeError` of line 207.  `nodes` lists the definition nodes of the
parsed file in the order `ast.walk` yields them. -/
def locateFunctionNode (nodes : List DefNode) (funcName : String) (funcLineno : Nat) :
    Except F2FError DefNode :=
  match ftLoop funcName funcLineno nodes none with
  | some n => Except.ok n
  | none => Except.error (F2FError.locateError funcName)

/-- The mutable visitor state of the standalone `ValidatorCollector`
(validator_collector.py lines 28-39): the `in_target` flag and the `result`
dict.  The immutable `target_func_name` attribute is passed as a parameter
to the traversal functions. -/
structure VCState where
  in_target : Bool
  result : ResultMap

/-- The `visit_*` method names the `ValidatorCollector` class defines
(validator_collector.py lines 41, 65, 84).  `ast.NodeVisitor.visit`
dispatches a node of class `C` to the method named `"visit_" + C.__name__`
when the visitor defines one, and to `generic_visit` otherwise. -/
def vcDefinedVisitMethods : List String :=
  ["visit_Function_Def", "visit_Async_Function_Def", "visit_Call"]

/-- Whether `ValidatorCollector` defines a `visit_*` method of the given
name (the `getattr(self, method, self.generic_visit)` lookup inside
`ast.NodeVisitor.visit`). -/
def vcHasVisitMethod (methodName : String) : Bool :=
  vcDefinedVisitMethods.contains methodName

mutual
/-- `ast.NodeVisitor.visit` of the standalone `ValidatorCollector` on a
statement node: dispatch to the method named `"visit_" + <node class name>`
when the class defines it, else `generic_visit`.  The dispatch keys for
definition nodes are `"visit_FunctionDef"` and `"visit_AsyncFunctionDef"`;
the class's hooks are spelled `visit_Function_Def` and
`visit_Async_Function_Def` (validator_collector.py lines 41 and 65), so the
lookup is by these exact strings.  No statement hook of any other name
exists, so the remaining statement kinds always fall to `generic_visit`. -/
def vcVisitS (tgt : String) (s : Stmt) (st : VCState) : VCState :=
  match s with
  | .functionDef n ln body =>
      if vcHasVisitMethod "visit_FunctionDef"
      then vcHookFunctionDef tgt (.functionDef n ln body) st
      else vcGenericSs tgt body st
  | .asyncFunctionDef n ln body =>
      if vcHasVisitMethod "visit_AsyncFunctionDef"
      then vcHookFunctionDef tgt (.asyncFunctionDef n ln body) st
      else vcGenericSs tgt body st
  | .exprStmt e => vcVisitE tgt e st
  | .other => st
termination_by (sizeOf s, 1)

/-- The body shared by `ValidatorCollector.visit_Function_Def` and
`ValidatorCollector.visit_Async_Function_Def` (validator_collector.py lines
56-63 and 77-82): on the target name while not yet inside, traverse the
body with `in_target` set, then clear it; when already inside, traverse the
body; otherwise do nothing (children are not visited). -/
def vcHookFunctionDef (tgt : String) (s : Stmt) (st : VCState) : VCState :=
  match s with
  | .functionDef n _ body =>
      if n = tgt ∧ st.in_target = false then
        let st1 := vcGenericSs tgt body { st with in_target := true }
        { st1 with in_target := false }
      else if st.in_target then vcGenericSs tgt body st
      else st
  | .asyncFunctionDef n _ body =>
      if n = tgt ∧ st.in_target = false then
        let st1 := vcGenericSs tgt body { st with in_target := true }
        { st1 with in_target := false }
      else if st.in_target then vcGenericSs tgt body st
      else st
  | _ => st
termination_by (sizeOf s, 0)

/-- `ValidatorCollector.visit_Call` (validator_collector.py lines 84-127):
return immediately when not inside the target (children are not visited);
otherwise detect `F2F.validate_*`, collect the first positional bare-name
argument and the bare-name value of the keyword named `"target"` (line
117: `kw.arg == "target"`), record them, and continue with
`generic_visit`. -/
def vcHookCall (tgt : String) (e : Expr) (st : VCState) : VCState :=
  match e with
  | .call f args kws =>
      if st.in_target = false then st
      else
        let st1 :=
          match f with
          | .attribute (.name vid) attr =>
              if vid = "F2F" && strStartsWith attr "validate_" then
                let ps1 : List String :=
                  match args with
                  | Expr.name id :: _ => [id]
                  | _ => []
                let ps2 : List String := kws.filterMap fun kw =>
                  match kw with
                  | (some k, Expr.name id) => if k = "target" then some id else none
                  | _ => none
                { st with
                    result := (ps1 ++ ps2).foldl (fun m p => record p attr m) st.result }
              else st
          | _ => st
        vcKws tgt kws (vcArgs tgt args (vcVisitE tgt f st1))
  | _ => st
termination_by (sizeOf e, 0)

/-- `ast.NodeVisitor.visit` of the standalone `ValidatorCollector` on an
expression node: `Call` nodes dispatch to the defined `visit_Call` hook;
no hook named after any other expression class exists, so the rest fall to
`generic_visit`. -/
def vcVisitE (tgt : String) (e : Expr) (st : VCState) : VCState :=
  match e with
  | .call f args kws =>
      if vcHasVisitMethod "visit_Call"
      then vcHookCall tgt (.call f args kws) st
      else vcKws tgt kws (vcArgs tgt args (vcVisitE tgt f st))
  | .attribute v _ => vcVisitE tgt v st
  | .name _ => st
  | .constant => st
  | .other => st
termination_by (sizeOf e, 1)

/-- `generic_visit` child traversal over a statement list. -/
def vcGenericSs (tgt : String) (ss : List Stmt) (st : VCState) : VCState :=
  match ss with
  | [] => st
  | s :: rest => vcGenericSs tgt rest (vcVisitS tgt s st)
termination_by (sizeOf ss, 1)

/-- `generic_visit` child traversal over a call's positional arguments. -/
def vcArgs (tgt : String) (es : List Expr) (st : VCState) : VCState :=
  match es with
  | [] => st
  | e :: rest => vcArgs tgt rest (vcVisitE tgt e st)
termination_by (sizeOf es, 1)

/-- `generic_visit` child traversal over a call's keyword values. -/
def vcKws (tgt : String) (kws : List (Option String × Expr)) (st : VCState) : VCState :=
  match kws with
  | [] => st
  | (_, v) :: rest => vcKws tgt rest (vcVisitE tgt v st)
termination_by (sizeOf kws, 1)
end

/-- Running `ValidatorCollector(target_func_name)` on a parsed tree node:
fresh state `in_target = False`, `result = {}` (validator_collector.py
lines 37-39), then `visit`. -/
def vcRun (tgt : String) (s : Stmt) : VCState :=
  vcVisitS tgt s { in_target := false, result := emptyResult }

/-- Equality of guard outcomes is decidable; the proof content is
irrelevant to `decide`, only the constructor tags are compared. -/
instance : DecidableEq (Except F2FError Unit) := fun x y =>
  match x, y with
  | Except.ok (), Except.ok () => isTrue rfl
  | Except.error a, Except.error b =>
      match decEq a b with
      | isTrue h => isTrue (h ▸ rfl)
      | isFalse h => isFalse fun hh => h (by injection hh)
  | Except.ok _, Except.error _ => isFalse fun hh => Except.noConfusion hh
  | Except.error _, Except.ok _ => isFalse fun hh => Except.noConfusion hh

/-- Membership in the union branch of the classifier: a validator is
required by a union exactly when some member other than `type(None)`
requires it. -/
theorem mem_unionRequired (v : String) (ms : List Ann) :
    v ∈ unionRequired ms ↔
      ∃ a, a ∈ ms ∧ a.isNoneType = false ∧ v ∈ requiredValidators a := by
  induction ms with
  | nil => simp [unionRequired]
  | cons a rest ih =>
    by_cases h : a.isNoneType
    · simp [unionRequired, h, ih]
    · simp [unionRequired, h, ih]

/-- C3: a union's required set is the union of the classifier over its
non-`None` members; a union of `int` and `None` yields exactly
`validate_Int`; a union all of whose members are `None` or unsupported
yields the empty set. -/
theorem C3_union_classifier (ms : List Ann) (v : String) :
    (v ∈ requiredValidators (Ann.union ms) ↔
      ∃ a, a ∈ ms ∧ a.isNoneType = false ∧ v ∈ requiredValidators a)
    ∧ requiredValidators (Ann.union [Ann.int, Ann.noneType]) = {"validate_Int"}
    ∧ ((∀ a, a ∈ ms → a.isNoneType = true ∨ requiredValidators a = ∅) →
        requiredValidators (Ann.union ms) = ∅) := by
  refine ⟨by simpa [requiredValidators] using mem_unionRequired v ms, by decide, ?_⟩
  intro h
  rw [Finset.eq_empty_iff_forall_not_mem]
  intro x hx
  rw [show requiredValidators (Ann.union ms) = unionRequired ms from by
    simp [requiredValidators]] at hx
  obtain ⟨a, ha, hn, hv⟩ := (mem_unionRequired x ms).mp hx
  rcases h a ha with h1 | h1
  · rw [h1] at hn; cases hn
  · rw [h1] at hv; exact absurd hv (Finset.not_mem_empty x)

/-- C3 witness: an all-null-or-unsupported union classifies to the empty
set. -/
theorem C3_union_classifier_witness :
    requiredValidators (Ann.union [Ann.noneType, Ann.custom "Color"]) = ∅ :=
  (C3_union_classifier [Ann.noneType, Ann.custom "Color"] "validate_Int").2.2
    (by
      intro a ha
      simp only [List.mem_cons, List.mem_singleton] at ha
      rcases ha with rfl | rfl | h
      · exact Or.inl rfl
      · exact Or.inr rfl
      · cases h)

/-- C4: a list annotation is classified solely by its outermost element
type: `int`/`float` elements give the numeric-list validator, `str`
elements the string-list validator, and any other, unknown, or absent
element — a nested list in particular — the generic list validator. -/
theorem C4_list_rules (e : Ann) :
    (e.isInt = true ∨ e.isFloat = true →
      requiredValidators (Ann.list (some e)) = {"validate_Numeric_List"})
    ∧ (e.isStr = true →
      requiredValidators (Ann.list (some e)) = {"validate_String_List"})
    ∧ (e.isInt = false → e.isFloat = false → e.isStr = false →
      requiredValidators (Ann.list (some e)) = {"validate_List"})
    ∧ requiredValidators (Ann.list none) = {"validate_List"}
    ∧ (∀ inner, requiredValidators (Ann.list (some (Ann.list inner)))
        = {"validate_List"}) := by
  refine ⟨?_, ?_, ?_, rfl, fun inner => rfl⟩
  · rintro (h | h) <;> cases e <;>
      simp_all [requiredValidators, Ann.isInt, Ann.isFloat, Ann.isStr]
  · intro h
    cases e <;> simp_all [requiredValidators, Ann.isInt, Ann.isFloat, Ann.isStr]
  · intro hI hF hS
    cases e <;> simp_all [requiredValidators, Ann.isInt, Ann.isFloat, Ann.isStr]

/-- C4 witness: `list[int]` needs the numeric-list validator, `list[str]`
the string-list validator, `list[SomeCustom]` and `list[list[int]]` the
generic list validator. -/
theorem C4_list_rules_witness :
    requiredValidators (Ann.list (some Ann.int)) = {"validate_Numeric_List"}
    ∧ requiredValidators (Ann.list (some Ann.str)) = {"validate_String_List"}
    ∧ requiredValidators (Ann.list (some (Ann.custom "Color"))) = {"validate_List"}
    ∧ requiredValidators (Ann.list (some (Ann.list (some Ann.int)))) = {"validate_List"} :=
  ⟨(C4_list_rules Ann.int).1 (Or.inl rfl),
   (C4_list_rules Ann.str).2.1 rfl,
   (C4_list_rules (Ann.custom "Color")).2.2.1 rfl rfl rfl,
   ((C4_list_rules (Ann.list (some Ann.int))).2.2.2.2 (some Ann.int))⟩

/-- C5: a boolean annotation classifies to exactly the boolean validator
and never to the integer validator, although the host type system treats
`bool` as a subtype of `int`: the guard's tests are identity tests on the
distinct type objects `bool` and `int`, never subtype tests. -/
theorem C5_bool_not_int :
    requiredValidators Ann.bool = {"validate_Bool"}
    ∧ "validate_Int" ∉ requiredValidators Ann.bool :=
  ⟨rfl, by decide⟩

/-- The five scalar builtin types of the supported catalog, used to state
the claims that quantify over "every scalar type T". -/
inductive ScalarT : Type
  | sint | sfloat | sbool | sstr | sbytes
deriving DecidableEq

/-- The annotation of each scalar type. -/
def scalarAnn : ScalarT → Ann
  | .sint => Ann.int
  | .sfloat => Ann.float
  | .sbool => Ann.bool
  | .sstr => Ann.str
  | .sbytes => Ann.bytes

/-- The matching validator of each scalar type (F2FGuard docstring,
f2f_guard.py lines 17-22). -/
def scalarValidator : ScalarT → String
  | .sint => "validate_Int"
  | .sfloat => "validate_Float"
  | .sbool => "validate_Bool"
  | .sstr => "validate_String"
  | .sbytes => "validate_Bytes"

/-- A one-statement function body `def foo(x): F2F.<v>(x)`, used to state
the claims about a body containing exactly one validator call on `x`. -/
def scalarBody (v : String) : Stmt :=
  Stmt.functionDef "foo" 4
    [Stmt.exprStmt (Expr.call (Expr.attribute (Expr.name "F2F") v) [Expr.name "x"] [])]

/-- C1 counterexample: a bare variable passed under the keyword
`min_value` (not the designated `target` keyword) IS recorded by the
call-site collector used on the analyzed function node
(`SimpleValidatorCollector`), and it DOES count as coverage: a parameter
`y : int` whose body contains only `F2F.validate_Int(min_value=y)` passes
the guard. -/
theorem C1_counterexample :
    collectFunction (Stmt.functionDef "foo" 1
      [Stmt.exprStmt (Expr.call (Expr.attribute (Expr.name "F2F") "validate_Int") []
        [(some "min_value", Expr.name "y")])]) "y" = {"validate_Int"}
    ∧ collectFunction (Stmt.functionDef "foo" 1
      [Stmt.exprStmt (Expr.call (Expr.attribute (Expr.name "F2F") "validate_Int") []
        [(some "min_value", Expr.name "y")])]) "y" ≠ (∅ : Finset String)
    ∧ validateFunction [⟨"y", false, some Ann.int⟩]
        (Stmt.functionDef "foo" 1
          [Stmt.exprStmt (Expr.call (Expr.attribute (Expr.name "F2F") "validate_Int") []
            [(some "min_value", Expr.name "y")])]) = Except.ok () :=
  ⟨by decide, by decide, by decide⟩

/-- C1 (amended): inside the analyzed function node the call-site collector
records a (parameter, validator) pair for EVERY keyword argument whose
keyword name is not null and whose value is a bare variable reference,
whatever the keyword name is — the `target`-keyword restriction exists only
in the unused standalone `ValidatorCollector` class. -/
theorem C1_keyword_any_name (k v attr : String) (r : ResultMap)
    (h : strStartsWith attr "validate_" = true) :
    simpleVisitCall (Expr.attribute (Expr.name "F2F") attr) []
      [(some k, Expr.name v)] r = record v attr r := by
  simp [simpleVisitCall, h]

/-- C1 witness: the `min_value` keyword records its bare-variable value. -/
theorem C1_keyword_any_name_witness :
    simpleVisitCall (Expr.attribute (Expr.name "F2F") "validate_Int") []
      [(some "min_value", Expr.name "y")] emptyResult
      = record "y" "validate_Int" emptyResult :=
  C1_keyword_any_name "min_value" "y" "validate_Int" emptyResult (by decide)

/-- C2 counterexample: for `x : int` with body `F2F.validate_Float(x)` the
guard raises the missing-validator error naming only `validate_Int`; it
does not raise the unexpected-validator error naming `validate_Float`,
because the missing check raises first (f2f_guard.py lines 91-99). -/
theorem C2_counterexample :
    validateFunction [⟨"x", false, some Ann.int⟩] (scalarBody "validate_Float")
      = Except.error (F2FError.missingValidators "x" {"validate_Int"})
    ∧ validateFunction [⟨"x", false, some Ann.int⟩] (scalarBody "validate_Float")
      ≠ Except.error (F2FError.extraValidators "x" {"validate_Float"}) :=
  ⟨by decide, by decide⟩

/-- C2 (amended): for every scalar type the matching validator call on the
parameter passes; any other single scalar validator call on that name fails
with the error that reports the matching validator as missing (the extra
check is never reached in that run, since the missing check raises
first). -/
theorem C2_scalar_matching (T T2 : ScalarT) (h : T ≠ T2) :
    validateFunction [⟨"x", false, some (scalarAnn T)⟩] (scalarBody (scalarValidator T))
      = Except.ok ()
    ∧ validateFunction [⟨"x", false, some (scalarAnn T)⟩] (scalarBody (scalarValidator T2))
      = Except.error (F2FError.missingValidators "x" {scalarValidator T}) := by
  cases T <;> cases T2 <;> first
    | exact absurd rfl h
    | exact ⟨by decide, by decide⟩

/-- C2 witness: int parameter, float validator. -/
theorem C2_scalar_matching_witness :
    validateFunction [⟨"x", false, some (scalarAnn ScalarT.sint)⟩]
        (scalarBody (scalarValidator ScalarT.sint)) = Except.ok ()
    ∧ validateFunction [⟨"x", false, some (scalarAnn ScalarT.sint)⟩]
        (scalarBody (scalarValidator ScalarT.sfloat))
      = Except.error (F2FError.missingValidators "x" {scalarValidator ScalarT.sint}) :=
  C2_scalar_matching ScalarT.sint ScalarT.sfloat (by decide)

/-- C6: a validator call whose relevant argument is not a bare identifier
contributes no coverage (the per-call analysis leaves the result unchanged
for any non-`Name` first positional argument and no keywords), and a
function `foo(x: int)` whose body validates only the derived expression
`wrap(x)` fails with `validate_Int` reported missing for `x`. -/
theorem C6_nonidentifier_no_coverage (attr : String) (a : Expr) (r : ResultMap)
    (h : ∀ id, a ≠ Expr.name id) :
    simpleVisitCall (Expr.attribute (Expr.name "F2F") attr) [a] [] r = r
    ∧ validateFunction [⟨"x", false, some Ann.int⟩]
        (Stmt.functionDef "foo" 1
          [Stmt.exprStmt (Expr.call (Expr.attribute (Expr.name "F2F") "validate_Int")
            [Expr.call (Expr.name "wrap") [Expr.name "x"] []] [])])
      = Except.error (F2FError.missingValidators "x" {"validate_Int"}) := by
  refine ⟨?_, by decide⟩
  rcases a with id | ⟨v, s⟩ | - | ⟨f, args, kws⟩ | -
  · exact absurd rfl (h id)
  · cases hc : strStartsWith attr "validate_" <;> simp [simpleVisitCall, hc]
  · cases hc : strStartsWith attr "validate_" <;> simp [simpleVisitCall, hc]
  · cases hc : strStartsWith attr "validate_" <;> simp [simpleVisitCall, hc]
  · cases hc : strStartsWith attr "validate_" <;> simp [simpleVisitCall, hc]

/-- C6 witness: an attribute access `x.value` as the argument. -/
theorem C6_nonidentifier_no_coverage_witness :
    simpleVisitCall (Expr.attribute (Expr.name "F2F") "validate_Int")
      [Expr.attribute (Expr.name "x") "value"] [] emptyResult = emptyResult
    ∧ validateFunction [⟨"x", false, some Ann.int⟩]
        (Stmt.functionDef "foo" 1
          [Stmt.exprStmt (Expr.call (Expr.attribute (Expr.name "F2F") "validate_Int")
            [Expr.call (Expr.name "wrap") [Expr.name "x"] []] [])])
      = Except.error (F2FError.missingValidators "x" {"validate_Int"}) :=
  C6_nonidentifier_no_coverage "validate_Int" (Expr.attribute (Expr.name "x") "value")
    emptyResult (fun _ hh => Expr.noConfusion hh)

/-- If some non-receiver, non-variadic parameter lacks an annotation, the
required-validator pass raises a missing-annotation error (for the first
such parameter encountered). -/
theorem computeRequired_missing (params : List Param) (p : Param)
    (hmem : p ∈ params) (hself : p.name ≠ "self") (hcls : p.name ≠ "cls")
    (hvar : p.isVariadic = false) (hann : p.annot = none) :
    ∃ q, computeRequired params = Except.error (F2FError.missingAnnot q) := by
  induction params with
  | nil => cases hmem
  | cons p0 rest ih =>
    rcases List.mem_cons.mp hmem with rfl | hmem2
    · exact ⟨p.name, by simp [computeRequired, hself, hcls, hvar, hann]⟩
    · by_cases h0 : (p0.name = "self" ∨ p0.name = "cls")
      · obtain ⟨q, hq⟩ := ih hmem2
        exact ⟨q, by simp [computeRequired, h0, hq]⟩
      · by_cases h1 : p0.isVariadic
        · obtain ⟨q, hq⟩ := ih hmem2
          exact ⟨q, by simp [computeRequired, h0, h1, hq]⟩
        · cases ha : p0.annot with
          | none => exact ⟨p0.name, by simp [computeRequired, h0, h1, ha]⟩
          | some a =>
            obtain ⟨q, hq⟩ := ih hmem2
            exact ⟨q, by simp [computeRequired, h0, h1, ha, hq]⟩

/-- C7: a parameter other than `self`/`cls` and the variadic collectors
that lacks a type annotation makes the analysis fail with the
missing-annotation error whatever the function body contains: the outcome
is the same for every body, because the error is raised while building the
required map, before the call-site collector ever runs. -/
theorem C7_missing_annot (params : List Param) (node : Stmt) (p : Param)
    (hmem : p ∈ params) (hself : p.name ≠ "self") (hcls : p.name ≠ "cls")
    (hvar : p.isVariadic = false) (hann : p.annot = none) :
    (∃ q, validateFunction params node = Except.error (F2FError.missingAnnot q))
    ∧ ∀ node2 : Stmt, validateFunction params node2 = validateFunction params node := by
  obtain ⟨q, hq⟩ := computeRequired_missing params p hmem hself hcls hvar hann
  exact ⟨⟨q, by simp [validateFunction, hq]⟩,
    fun node2 => by simp [validateFunction, hq]⟩

/-- C7 witness: a single annotation-less parameter `y`, instantiated at a
body that even contains a matching-looking validator call. -/
theorem C7_missing_annot_witness :
    (∃ q, validateFunction [⟨"y", false, none⟩]
        (Stmt.functionDef "foo" 1
          [Stmt.exprStmt (Expr.call (Expr.attribute (Expr.name "F2F") "validate_Int")
            [Expr.name "y"] [])])
      = Except.error (F2FError.missingAnnot q))
    ∧ ∀ node2 : Stmt, validateFunction [⟨"y", false, none⟩] node2
      = validateFunction [⟨"y", false, none⟩]
          (Stmt.functionDef "foo" 1
            [Stmt.exprStmt (Expr.call (Expr.attribute (Expr.name "F2F") "validate_Int")
              [Expr.name "y"] [])]) :=
  C7_missing_annot [⟨"y", false, none⟩] _ ⟨"y", false, none⟩
    (List.mem_singleton.mpr rfl) (by decide) (by decide) rfl rfl

/-- Every entry kept in the required map has a nonempty validator set: a
parameter whose annotation classifies to the empty set is dropped by the
`if needed:` filter (f2f_guard.py lines 81-82) and is therefore never
compared. -/
theorem computeRequired_ok_nonempty (params : List Param)
    (pr : List (String × Finset String))
    (hpr : computeRequired params = Except.ok pr) :
    ∀ x ∈ pr, x.2 ≠ ∅ := by
  induction params generalizing pr with
  | nil =>
    simp only [computeRequired, Except.ok.injEq] at hpr
    subst hpr
    simp
  | cons p0 rest ih =>
    by_cases h0 : (p0.name = "self" ∨ p0.name = "cls")
    · rw [computeRequired, if_pos h0] at hpr
      exact ih pr hpr
    · by_cases h1 : p0.isVariadic
      · rw [computeRequired, if_neg h0, if_pos h1] at hpr
        exact ih pr hpr
      · cases ha : p0.annot with
        | none => rw [computeRequired, if_neg h0, if_neg h1, ha] at hpr; cases hpr
        | some a =>
          rw [computeRequired, if_neg h0, if_neg h1, ha] at hpr
          cases hr : computeRequired rest with
          | error e => rw [hr] at hpr; cases hpr
          | ok tail =>
            rw [hr] at hpr
            by_cases hn : requiredValidators a = ∅
            · simp only [hn, if_pos, Except.ok.injEq] at hpr
              subst hpr
              exact ih tail hr
            · simp only [if_neg hn, Except.ok.injEq] at hpr
              subst hpr
              intro x hx
              rcases List.mem_cons.mp hx with rfl | hx2
              · exact hn
              · exact ih tail hr x hx2

/-- The comparison loop reads the collected map only at the names of the
required entries. -/
theorem checkCoverage_congr (pr : List (String × Finset String)) (m1 m2 : ResultMap)
    (h : ∀ x ∈ pr, m1 x.1 = m2 x.1) :
    checkCoverage pr m1 = checkCoverage pr m2 := by
  induction pr with
  | nil => rfl
  | cons x rest ih =>
    obtain ⟨pname, req⟩ := x
    have hx : m1 pname = m2 pname := h (pname, req) (List.mem_cons_self _ _)
    have hrest := ih fun y hy => h y (List.mem_cons_of_mem _ hy)
    simp only [checkCoverage, hx, hrest]

/-- C8: a parameter whose required validator set is empty is never
compared: every entry that reaches the comparison loop has a nonempty
required set, and the verdict depends on the collected call sites only at
the compared parameter names — so calls (or their absence) on a parameter
with an empty required set can never change the outcome. -/
theorem C8_empty_required_never_checked (params : List Param) (node1 node2 : Stmt)
    (pr : List (String × Finset String))
    (hpr : computeRequired params = Except.ok pr)
    (hagree : ∀ x ∈ pr, collectFunction node1 x.1 = collectFunction node2 x.1) :
    (∀ x ∈ pr, x.2 ≠ ∅)
    ∧ validateFunction params node1 = validateFunction params node2 := by
  refine ⟨computeRequired_ok_nonempty params pr hpr, ?_⟩
  simp [validateFunction, hpr, checkCoverage_congr pr _ _ hagree]

/-- C8 witness: a custom-typed parameter `w` classifies to the empty set;
a body that validates it and a body that does not produce the same
verdict. -/
theorem C8_empty_required_never_checked_witness :
    (∀ x ∈ ([] : List (String × Finset String)), x.2 ≠ ∅)
    ∧ validateFunction [⟨"w", false, some (Ann.custom "Widget")⟩]
        (Stmt.functionDef "foo" 1
          [Stmt.exprStmt (Expr.call (Expr.attribute (Expr.name "F2F") "validate_Int")
            [Expr.name "w"] [])])
      = validateFunction [⟨"w", false, some (Ann.custom "Widget")⟩] Stmt.other :=
  C8_empty_required_never_checked [⟨"w", false, some (Ann.custom "Widget")⟩] _ _ []
    rfl (fun x hx => absurd hx (List.not_mem_nil x))

/-- Characterization of the locator loop: an exact (name, lineno) match
anywhere in the remaining nodes wins (the loop breaks at the first one);
otherwise the accumulator, if already set, is kept; otherwise the first
name match of the remaining nodes is taken. -/
theorem ftLoop_spec (fn : String) (ln : Nat) (nodes : List DefNode)
    (acc : Option DefNode) :
    ftLoop fn ln nodes acc =
      match nodes.find? (fun n => decide (n.name = fn ∧ n.lineno = ln)) with
      | some n => some n
      | none =>
          match acc with
          | some m => some m
          | none => nodes.find? fun n => decide (n.name = fn) := by
  induction nodes generalizing acc with
  | nil => cases acc <;> simp [ftLoop]
  | cons n rest ih =>
    by_cases h1 : n.name = fn
    · by_cases h2 : n.lineno = ln
      · simp [ftLoop, h1, h2, List.find?]
      · cases acc with
        | none => simp [ftLoop, h1, h2, List.find?, ih]
        | some m => simp [ftLoop, h1, h2, List.find?, ih]
    · cases acc with
      | none => simp [ftLoop, h1, List.find?, ih]
      | some m => simp [ftLoop, h1, List.find?, ih]

/-- C9: the locator returns the first definition node whose name and start
line both match the reflected callable when one exists, else the first
node with a matching name, and fails with the locate error when no node
carries that name at all. -/
theorem C9_locator (nodes : List DefNode) (fn : String) (ln : Nat) :
    locateFunctionNode nodes fn ln =
      match nodes.find? (fun n => decide (n.name = fn ∧ n.lineno = ln)) with
      | some n => Except.ok n
      | none =>
          match nodes.find? (fun n => decide (n.name = fn)) with
          | some n => Except.ok n
          | none => Except.error (F2FError.locateError fn) := by
  simp only [locateFunctionNode, ftLoop_spec]
  cases hf : nodes.find? (fun n => decide (n.name = fn ∧ n.lineno = ln)) with
  | none =>
    cases hg : nodes.find? (fun n => decide (n.name = fn)) with
    | none => simp [hf, hg]
    | some m => simp [hf, hg]
  | some n => simp [hf]

mutual
/-- With `in_target` still false, visiting any statement with the
standalone `ValidatorCollector` leaves the state untouched: the
definition hooks are never dispatched (their names do not match the
dispatch keys), so `in_target` can never be set, and `visit_Call` returns
at its guard. -/
theorem vcVisitS_id (tgt : String) (s : Stmt) (st : VCState)
    (h : st.in_target = false) : vcVisitS tgt s st = st := by
  rw [vcVisitS.eq_def]
  rcases s with ⟨n, ln, body⟩ | ⟨n, ln, body⟩ | e | -
  · simp only [show vcHasVisitMethod "visit_FunctionDef" = false from rfl,
      Bool.false_eq_true, if_false]
    exact vcGenericSs_id tgt body st h
  · simp only [show vcHasVisitMethod "visit_AsyncFunctionDef" = false from rfl,
      Bool.false_eq_true, if_false]
    exact vcGenericSs_id tgt body st h
  · exact vcVisitE_id tgt e st h
  · rfl
termination_by (sizeOf s, 1)

/-- With `in_target` still false, visiting any expression leaves the state
untouched. -/
theorem vcVisitE_id (tgt : String) (e : Expr) (st : VCState)
    (h : st.in_target = false) : vcVisitE tgt e st = st := by
  rw [vcVisitE.eq_def]
  rcases e with i | ⟨v, a⟩ | - | ⟨f, args, kws⟩ | -
  · rfl
  · exact vcVisitE_id tgt v st h
  · rfl
  · simp only [show vcHasVisitMethod "visit_Call" = true from rfl, if_true]
    exact vcHookCall_id tgt (Expr.call f args kws) st h
  · rfl
termination_by (sizeOf e, 1)

/-- With `in_target` false, the `visit_Call` hook returns at its guard
without recording or visiting children. -/
theorem vcHookCall_id (tgt : String) (e : Expr) (st : VCState)
    (h : st.in_target = false) : vcHookCall tgt e st = st := by
  rw [vcHookCall.eq_def]
  rcases e with i | ⟨v, a⟩ | - | ⟨f, args, kws⟩ | -
  · rfl
  · rfl
  · rfl
  · simp [h]
  · rfl

/-- With `in_target` false, `generic_visit` over a statement list leaves
the state untouched. -/
theorem vcGenericSs_id (tgt : String) (ss : List Stmt) (st : VCState)
    (h : st.in_target = false) : vcGenericSs tgt ss st = st := by
  rw [vcGenericSs.eq_def]
  rcases ss with - | ⟨s, rest⟩
  · rfl
  · show vcGenericSs tgt rest (vcVisitS tgt s st) = st
    rw [vcVisitS_id tgt s st h]
    exact vcGenericSs_id tgt rest st h
termination_by (sizeOf ss, 1)
end

/-- C10: on every syntax tree and every target name, the standalone
`ValidatorCollector` produces an empty result mapping and never enters a
target: its definition hooks are named `visit_Function_Def` and
`visit_Async_Function_Def`, while the visitor dispatch looks up
`visit_FunctionDef` and `visit_AsyncFunctionDef`, so the hooks are never
invoked, `in_target` never becomes true, and `visit_Call` always returns
without recording. -/
theorem C10_standalone_collector_empty (tgt : String) (s : Stmt) :
    vcHasVisitMethod "visit_FunctionDef" = false
    ∧ vcHasVisitMethod "visit_AsyncFunctionDef" = false
    ∧ vcHasVisitMethod "visit_Function_Def" = true
    ∧ vcHasVisitMethod "visit_Async_Function_Def" = true
    ∧ vcRun tgt s = { in_target := false, result := emptyResult } :=
  ⟨rfl, rfl, rfl, rfl, vcVisitS_id tgt s { in_target := false, result := emptyResult } rfl⟩
